import Mathlib

set_option maxRecDepth 100000

deriving instance DecidableEq for Except

/-!
Verification development for the Candidate Email Manager
(`candidate_email_manager.py`).

The Python program is shallowly embedded: the DuckDB tables become lists of
records inside a `ManagerState`, timestamps become `Int` (seconds), and the
`CandidateEmailManager` methods become pure functions over `ManagerState`.
Python's `str.format` (used to render templates) is modelled by `pyFormat`
restricted to the feature subset the program exercises (named fields,
`\x7b\x7b` / `\x7d\x7d` escapes); format specs (`:`-suffixes) are not modelled
because no template uses them.  A Python exception escaping
`process_email_queue` is modelled by the `err` field of `PassResult`.
-/

namespace CEM

/-- Embeds the `Candidate` dataclass / `candidates` table: id, name, email,
position (nullable column, hence `Option`), status (default `active`). -/
structure Candidate where
  id : Nat
  name : String
  email : String
  position : Option String
  status : String := "active"
deriving DecidableEq

/-- Embeds the `EmailTemplate` dataclass: sequence number, subject pattern,
body pattern, delay in days. -/
structure EmailTemplate where
  id : Nat
  sequence_number : Nat
  subject : String
  body : String
  delay_days : Nat := 0
deriving DecidableEq

/-- Embeds one row of the `email_queue` table. `scheduled_for` is a timestamp
in seconds. The `id` primary key is assigned sequentially by the embedding
(`ManagerState.nextQueueId`), standing in for the database key. -/
structure QueueRow where
  id : Nat
  candidate_id : Nat
  email_sequence : Nat
  scheduled_for : Int
  status : String := "pending"
deriving DecidableEq

/-- Embeds one row of the `email_logs` table (columns the program writes). -/
structure LogEntry where
  candidate_id : Nat
  email_sequence : Nat
  subject : String
  status : String
  error_message : Option String
deriving DecidableEq

/-- The manager's state: the three tables plus the in-memory template list
(`self.email_templates`) and the next fresh queue-row id. -/
structure ManagerState where
  candidates : List Candidate
  templates : List EmailTemplate
  queue : List QueueRow
  logs : List LogEntry
  nextQueueId : Nat
deriving DecidableEq

/-- `timedelta(days=d)` in seconds. -/
def timedeltaDays (d : Nat) : Int := 86400 * (d : Int)

/- ----------------------------------------------------------------
Python `str.format` model (the subset used by the program).
---------------------------------------------------------------- -/

/-- A parsed chunk of a format string: literal text or a `\x7bfield\x7d`. -/
inductive Seg where
  | lit : String → Seg
  | field : String → Seg
deriving DecidableEq

/-- Python `str(value)` on the position column: `None` prints as the word None. -/
def pyStr : Option String → String
  | none => "None"
  | some s => s

def valueErrSingle : String := "ValueError: single brace in format string"
def valueErrNested : String := "ValueError: unexpected brace in field name"

/-- Parser for Python format strings. Second argument: `none` = in literal
text, `some acc` = inside a field name (chars accumulated in reverse).
Double braces escape to a literal brace; an unmatched single brace is a
`ValueError`; a field name ends at the first closing brace. -/
def parseFmtAux : List Char → Option (List Char) → Except String (List Seg)
  | [], none => Except.ok []
  | [], some _ => Except.error valueErrSingle
  | '{' :: '{' :: cs, none =>
    match parseFmtAux cs none with
    | Except.error e => Except.error e
    | Except.ok segs => Except.ok (Seg.lit (String.mk ['{']) :: segs)
  | '}' :: '}' :: cs, none =>
    match parseFmtAux cs none with
    | Except.error e => Except.error e
    | Except.ok segs => Except.ok (Seg.lit (String.mk ['}']) :: segs)
  | '{' :: cs, none => parseFmtAux cs (some [])
  | '}' :: _, none => Except.error valueErrSingle
  | c :: cs, none =>
    match parseFmtAux cs none with
    | Except.error e => Except.error e
    | Except.ok segs => Except.ok (Seg.lit (String.mk [c]) :: segs)
  | '}' :: cs, some acc =>
    match parseFmtAux cs none with
    | Except.error e => Except.error e
    | Except.ok segs => Except.ok (Seg.field (String.mk acc.reverse) :: segs)
  | '{' :: _, some _ => Except.error valueErrNested
  | c :: cs, some acc => parseFmtAux cs (some (c :: acc))

def fieldCandidateName : String := "candidate_name"
def fieldPosition : String := "position"
def keyErrorOn (f : String) : String := "KeyError: " ++ f

/-- Rendering one segment under `.format(candidate_name=name, position=position)`:
only the two keyword arguments the program passes are available; any other
field name is a `KeyError` (Python raises, it is not left verbatim). -/
def renderSeg (cname : String) (pos : Option String) : Seg → Except String String
  | Seg.lit s => Except.ok s
  | Seg.field f =>
    if f = fieldCandidateName then Except.ok cname
    else if f = fieldPosition then Except.ok (pyStr pos)
    else Except.error (keyErrorOn f)

def renderSegs (cname : String) (pos : Option String) : List Seg → Except String (List String)
  | [] => Except.ok []
  | sg :: rest =>
    match renderSeg cname pos sg with
    | Except.error e => Except.error e
    | Except.ok s =>
      match renderSegs cname pos rest with
      | Except.error e => Except.error e
      | Except.ok l => Except.ok (s :: l)

def concatAll : List String → String
  | [] => ""
  | [s] => s
  | s :: rest => s ++ concatAll rest

/-- `tmpl.format(candidate_name=cname, position=pos)` as the program calls it. -/
def pyFormat (tmpl cname : String) (pos : Option String) : Except String String :=
  match parseFmtAux tmpl.data none with
  | Except.error e => Except.error e
  | Except.ok segs =>
    match renderSegs cname pos segs with
    | Except.error e => Except.error e
    | Except.ok parts => Except.ok (concatAll parts)

/- ----------------------------------------------------------------
The program's operations.
---------------------------------------------------------------- -/

/-- `load_email_templates`: the three hard-coded templates (verbatim text,
`\x27` escapes an apostrophe, `\n` a newline). -/
def loadEmailTemplates : List EmailTemplate :=
  [ { id := 1, sequence_number := 1,
      subject := "Welcome to Our Recruitment Process - {candidate_name}",
      body := "Hi {candidate_name},\n\nThank you for your interest in the {position} position at our company!\n\nWe\x27re excited to move forward with your application. This email confirms that we\x27ve received your application and our team will be reviewing it shortly.\n\nWhat\x27s next:\n- Our hiring team will review your application\n- We\x27ll reach out within the next few days with updates\n- Please feel free to reply if you have any questions\n\nBest regards,\nThe Hiring Team",
      delay_days := 0 },
    { id := 2, sequence_number := 2,
      subject := "Application Update - Next Steps for {candidate_name}",
      body := "Hi {candidate_name},\n\nI hope this email finds you well!\n\nWe\x27ve completed our initial review of your application for the {position} role, and we\x27re impressed with your background.\n\nNext steps:\n- We\x27d like to schedule a brief phone screening\n- Please reply with your availability for this week\n- The call will take approximately 30 minutes\n\nWe\x27re looking forward to learning more about you and discussing how you might fit into our team.\n\nBest regards,\nThe Hiring Team",
      delay_days := 2 },
    { id := 3, sequence_number := 3,
      subject := "Final Steps - {position} Opportunity",
      body := "Hi {candidate_name},\n\nThank you for the great conversation during our phone screening!\n\nWe\x27re moving to the final stages of our process for the {position} role. Based on our discussion, we believe you could be a great fit for our team.\n\nFinal steps:\n- Technical interview/presentation (1 hour)\n- Meet with team members (30 minutes)\n- Final decision within 48 hours after the interview\n\nPlease let us know your availability for next week, and we\x27ll coordinate the schedule.\n\nExcited to continue this process with you!\n\nBest regards,\nThe Hiring Team",
      delay_days := 5 } ]

/-- The rows inserted by the loop in `trigger_email_sequence`: one `pending`
row per template, due at `base_date + timedelta(days=delay_days)`, with
sequentially assigned primary keys starting at `nid`. -/
def scheduleRows (cid : Nat) (base_date : Int) : List EmailTemplate → Nat → List QueueRow
  | [], _ => []
  | t :: ts, nid =>
    { id := nid, candidate_id := cid, email_sequence := t.sequence_number,
      scheduled_for := base_date + timedeltaDays t.delay_days, status := "pending" }
      :: scheduleRows cid base_date ts (nid + 1)

/-- Outcome of `trigger_email_sequence`: the Python function returns `None`
either way; `notFound` is the branch that prints the not-found message and
returns, `scheduled n` the branch that inserts `n` queue rows and commits.
No exception is raised on either path. -/
inductive TriggerResult where
  | notFound
  | scheduled (n : Nat)
deriving DecidableEq

/-- `trigger_email_sequence(candidate_id)` at time `now` (`datetime.now()`):
looks the candidate up; if absent, prints and returns with no insert;
otherwise unconditionally inserts one pending row per template. -/
def triggerEmailSequence (s : ManagerState) (cid : Nat) (now : Int) :
    ManagerState × TriggerResult :=
  match s.candidates.find? (fun c => c.id == cid) with
  | none => (s, TriggerResult.notFound)
  | some _ =>
    ({ s with
        queue := s.queue ++ scheduleRows cid now s.templates s.nextQueueId,
        nextQueueId := s.nextQueueId + s.templates.length },
     TriggerResult.scheduled s.templates.length)

/-- `WHERE eq.status = 'pending' AND eq.scheduled_for <= CURRENT_TIMESTAMP`. -/
def duePending (s : ManagerState) (now : Int) : List QueueRow :=
  s.queue.filter (fun q => q.status == "pending" && decide (q.scheduled_for ≤ now))

/-- `JOIN candidates c ON eq.candidate_id = c.id`: every matching pair. -/
def joinCandidates (s : ManagerState) (rows : List QueueRow) :
    List (QueueRow × Candidate) :=
  rows.flatMap (fun q =>
    (s.candidates.filter (fun c => c.id == q.candidate_id)).map (fun c => (q, c)))

/-- Insertion step of a stable sort on `scheduled_for` (strict comparison, so
an inserted element lands before later elements with an equal key). -/
def insertSched (a : QueueRow × Candidate) :
    List (QueueRow × Candidate) → List (QueueRow × Candidate)
  | [] => [a]
  | b :: l =>
    if b.1.scheduled_for < a.1.scheduled_for then b :: insertSched a l
    else a :: b :: l

/-- `ORDER BY eq.scheduled_for`: the query names a single sort key, so ties
are returned in an order the SQL leaves unspecified; the embedding realises
them in table order (stable sort), one of the permitted orders. -/
def sortSched : List (QueueRow × Candidate) → List (QueueRow × Candidate)
  | [] => []
  | a :: l => insertSched a (sortSched l)

/-- The `pending_emails` result set of `process_email_queue`. -/
def selectPending (s : ManagerState) (now : Int) : List (QueueRow × Candidate) :=
  sortSched (joinCandidates s (duePending s now))

/-- One invocation of `self.send_email(...)` inside the dispatch loop,
recorded for the proofs: which queue row it served and whether it succeeded. -/
structure Attempt where
  queue_id : Nat
  candidate_id : Nat
  email_sequence : Nat
  subject : String
  success : Bool
deriving DecidableEq

def smtpErrorMsg : String := "SMTP Error"

/-- `UPDATE email_queue SET status = ? WHERE id = ?`. -/
def updateQueueStatus (s : ManagerState) (qid : Nat) (v : String) : ManagerState :=
  { s with queue := s.queue.map (fun q => if q.id == qid then { q with status := v } else q) }

/-- `INSERT INTO email_logs (...)`. -/
def appendLog (s : ManagerState) (e : LogEntry) : ManagerState :=
  { s with logs := s.logs ++ [e] }

/-- Observable outcome of one `process_email_queue` call: the final state,
the sequence of send attempts, and `err = some e` when a Python exception
(e.g. a `KeyError` from `str.format`) escapes the call. The Python function
itself returns `None`; it reports nothing else to its caller. -/
structure PassResult where
  state : ManagerState
  attempts : List Attempt
  err : Option String
deriving DecidableEq

/-- The `for` loop of `process_email_queue` over the pre-fetched result set:
missing template → `continue` (row untouched); otherwise render (a format
error aborts the call), call the sender, set the row's status to
`sent`/`failed`, and insert one log entry. -/
def runRows (sender : String → String → String → Bool) (s : ManagerState) :
    List (QueueRow × Candidate) → PassResult
  | [] => { state := s, attempts := [], err := none }
  | (q, c) :: rest =>
    match s.templates.find? (fun t => t.sequence_number == q.email_sequence) with
    | none => runRows sender s rest
    | some t =>
      match pyFormat t.subject c.name c.position with
      | Except.error e => { state := s, attempts := [], err := some e }
      | Except.ok subj =>
        match pyFormat t.body c.name c.position with
        | Except.error e => { state := s, attempts := [], err := some e }
        | Except.ok body =>
          let ok := sender c.email subj body
          let s1 := updateQueueStatus s q.id (if ok then "sent" else "failed")
          let s2 := appendLog s1
            { candidate_id := q.candidate_id, email_sequence := q.email_sequence,
              subject := subj, status := if ok then "sent" else "failed",
              error_message := if ok then none else some smtpErrorMsg }
          let r := runRows sender s2 rest
          { state := r.state,
            attempts :=
              { queue_id := q.id, candidate_id := q.candidate_id,
                email_sequence := q.email_sequence, subject := subj,
                success := ok } :: r.attempts,
            err := r.err }

/-- `process_email_queue()` at time `now`, with `self.send_email` abstracted
as `sender` (the loop calls it once per row and branches on its boolean). -/
def processEmailQueue (s : ManagerState) (now : Int)
    (sender : String → String → String → Bool) : PassResult :=
  runRows sender s (selectPending s now)

/-- The SMTP-related environment variables `send_email` reads. -/
structure SmtpEnv where
  smtp_user : Option String
  smtp_password : Option String
deriving DecidableEq

/-- Python truthiness of `os.getenv(...)`: `None` and the empty string are falsy. -/
def truthy : Option String → Bool
  | none => false
  | some s => s != ""

/-- What `send_email` does: its return value and whether any SMTP traffic
happened. -/
structure SendOutcome where
  result : Bool
  transmitted : Bool
deriving DecidableEq

/-- `send_email(to_email, subject, body)`. If `SMTP_USER`/`SMTP_PASSWORD` are
not both truthy, the function prints a simulation notice and returns `True`
without transmitting. Otherwise it evaluates `MimeMultipart()` — a name that
does not exist (the import is `MIMEMultipart`) — so a `NameError` is raised
before any SMTP connection, caught by the blanket `except`, and the function
returns `False`; no transmission happens on that path either. -/
def sendEmailFull (env : SmtpEnv) (to_email subject body : String) : SendOutcome :=
  if truthy env.smtp_user && truthy env.smtp_password then
    { result := false, transmitted := false }
  else
    { result := true, transmitted := false }

/-- The boolean `send_email` returns to the dispatch loop. -/
def sendEmail (env : SmtpEnv) (to_email subject body : String) : Bool :=
  (sendEmailFull env to_email subject body).result

/-- Sequential re-invocations of `process_email_queue` at the given times,
collecting every send attempt. -/
def runPasses (sender : String → String → String → Bool) :
    ManagerState → List Int → ManagerState × List Attempt
  | s, [] => (s, [])
  | s, t :: ts =>
    let r := processEmailQueue s t sender
    let rest := runPasses sender r.state ts
    (rest.1, r.attempts ++ rest.2)

/-- Two overlapping dispatch passes: both execute their `SELECT` (fetchall)
before either performs an `UPDATE`, then run their loops one after the other.
This is a legal interleaving of two concurrent `process_email_queue` calls. -/
def interleavedPasses (s : ManagerState) (now : Int)
    (sender : String → String → String → Bool) : ManagerState × List Attempt :=
  let rows := selectPending s now
  let r1 := runRows sender s rows
  let r2 := runRows sender r1.state rows
  (r2.state, r1.attempts ++ r2.attempts)

/-- Number of queue rows that have reached a terminal status. -/
def resolvedCount (s : ManagerState) : Nat :=
  (s.queue.filter (fun q => q.status == "sent" || q.status == "failed")).length

/-- Number of pending queue rows for a (candidate, sequence) pair. -/
def pendingCount (s : ManagerState) (cid n : Nat) : Nat :=
  (s.queue.filter (fun q =>
    q.candidate_id == cid && q.email_sequence == n && q.status == "pending")).length

/-- How many of the recorded attempts served queue row `i`. -/
def countA (l : List Attempt) (i : Nat) : Nat :=
  (l.filter (fun a => a.queue_id == i)).length

/-- Cumulative terminal-row counts observed after each pass of a sequence. -/
def resolvedAfterPasses (sender : String → String → String → Bool) :
    ManagerState → List Int → List Nat
  | _, [] => []
  | s, t :: ts =>
    let r := processEmailQueue s t sender
    resolvedCount r.state :: resolvedAfterPasses sender r.state ts

/-- Does the dispatch loop have everything it needs for this joined row: a
template with the row's sequence number whose subject and body both render
without a format error? -/
def rowRendersB (tps : List EmailTemplate) (p : QueueRow × Candidate) : Bool :=
  match tps.find? (fun t => t.sequence_number == p.1.email_sequence) with
  | none => false
  | some t =>
    (match pyFormat t.subject p.2.name p.2.position with
     | Except.ok _ => true
     | Except.error _ => false) &&
    (match pyFormat t.body p.2.name p.2.position with
     | Except.ok _ => true
     | Except.error _ => false)

/-- No row with id `i` is `pending` (used to show a resolved row can never be
selected or sent again). -/
def noPendingId (s : ManagerState) (i : Nat) : Prop :=
  ∀ q ∈ s.queue, q.id = i → q.status ≠ "pending"

/-- Every row with id `i` has status `v`. -/
def allIdStatus (s : ManagerState) (i : Nat) (v : String) : Prop :=
  ∀ q ∈ s.queue, q.id = i → q.status = v

/- ----------------------------------------------------------------
Concrete fixtures used by witnesses and counterexamples.
---------------------------------------------------------------- -/

def senderTrue : String → String → String → Bool := fun _ _ _ => true

def candAna : Candidate :=
  { id := 1, name := "Ana", email := "ana@example.com", position := some ("Engineer") }

/-- A fresh manager right after `setup_database`/`load_email_templates`,
with one candidate added. -/
def baseState : ManagerState :=
  { candidates := [candAna],
    templates := loadEmailTemplates,
    queue := [],
    logs := [],
    nextQueueId := 1 }

/-- `trigger_email_sequence(1)` run once at time 0. -/
def enrolledOnce : ManagerState := (triggerEmailSequence baseState 1 0).1

/-- `trigger_email_sequence(1)` run twice at time 0. -/
def enrolledTwice : ManagerState := (triggerEmailSequence enrolledOnce 1 0).1

def tmplCandOnly : String := "{candidate_name}"
def tmplPosOnly : String := "{position}"
def tmplUnknown : String := "{next_step}"
def anaWord : String := "Ana"
def devWord : String := "Developer"
def noneWord : String := "None"
def nextStepWord : String := "next_step"

def tplSimple : EmailTemplate :=
  { id := 1, sequence_number := 1, subject := "S", body := "B", delay_days := 0 }

def candTieA : Candidate :=
  { id := 2, name := "B", email := "b@x.com", position := some ("P") }

def candTieB : Candidate :=
  { id := 1, name := "A", email := "a@x.com", position := some ("P") }

/-- Two pending rows with the same due time; the row of candidate 2 was
inserted first (lower primary key), the row of candidate 1 second. -/
def tieState : ManagerState :=
  { candidates := [candTieA, candTieB],
    templates := [tplSimple],
    queue := [ { id := 1, candidate_id := 2, email_sequence := 1,
                 scheduled_for := 100, status := "pending" },
               { id := 2, candidate_id := 1, email_sequence := 1,
                 scheduled_for := 100, status := "pending" } ],
    logs := [],
    nextQueueId := 3 }

/-- One due pending row, for the overlapping-dispatch scenario. -/
def raceState : ManagerState :=
  { candidates := [candTieB],
    templates := [tplSimple],
    queue := [ { id := 1, candidate_id := 1, email_sequence := 1,
                 scheduled_for := 0, status := "pending" } ],
    logs := [],
    nextQueueId := 2 }

/-- One due pending row whose sequence number matches no template. -/
def skipState : ManagerState :=
  { candidates := [candTieB],
    templates := [],
    queue := [ { id := 1, candidate_id := 1, email_sequence := 1,
                 scheduled_for := 0, status := "pending" } ],
    logs := [],
    nextQueueId := 2 }

def tplBadField : EmailTemplate :=
  { id := 1, sequence_number := 1, subject := "{next_step}", body := "B", delay_days := 0 }

/-- One due pending row whose template subject holds an unrecognized
placeholder. -/
def badFieldState : ManagerState :=
  { candidates := [candTieB],
    templates := [tplBadField],
    queue := [ { id := 1, candidate_id := 1, email_sequence := 1,
                 scheduled_for := 0, status := "pending" } ],
    logs := [],
    nextQueueId := 2 }

def tplSmall : EmailTemplate :=
  { id := 1, sequence_number := 1, subject := "Hi {candidate_name}",
    body := "Re {position}", delay_days := 0 }

/-- One due pending row with a well-formed small template. -/
def oneRowState : ManagerState :=
  { candidates := [candTieB],
    templates := [tplSmall],
    queue := [ { id := 1, candidate_id := 1, email_sequence := 1,
                 scheduled_for := 0, status := "pending" } ],
    logs := [],
    nextQueueId := 2 }

/- ----------------------------------------------------------------
Theorems.
---------------------------------------------------------------- -/

/-- C1 (counterexample): enrolling candidate 1 twice leaves two `pending`
queue rows for the pair (candidate 1, sequence 1) — `trigger_email_sequence`
performs no dedup check, contradicting the claim that enrolling twice never
produces two pending queue rows for the same (subject, sequence number) pair. -/
theorem enroll_twice_duplicate_pending_rows :
    pendingCount enrolledTwice 1 1 = 2 ∧ ¬ pendingCount enrolledTwice 1 1 ≤ 1 := by
  decide

theorem trigger_found_eq (s : ManagerState) (cid : Nat) (now : Int) (c : Candidate)
    (h : s.candidates.find? (fun x => x.id == cid) = some c) :
    triggerEmailSequence s cid now =
      ({ s with
          queue := s.queue ++ scheduleRows cid now s.templates s.nextQueueId,
          nextQueueId := s.nextQueueId + s.templates.length },
       TriggerResult.scheduled s.templates.length) := by
  simp [triggerEmailSequence, h]

theorem trigger_candidates (s : ManagerState) (cid : Nat) (now : Int) :
    (triggerEmailSequence s cid now).1.candidates = s.candidates := by
  unfold triggerEmailSequence
  cases s.candidates.find? (fun x => x.id == cid) <;> simp

theorem trigger_templates (s : ManagerState) (cid : Nat) (now : Int) :
    (triggerEmailSequence s cid now).1.templates = s.templates := by
  unfold triggerEmailSequence
  cases s.candidates.find? (fun x => x.id == cid) <;> simp

theorem scheduleRows_pending_len (cid : Nat) (base : Int) (n : Nat) :
    ∀ (tps : List EmailTemplate) (nid : Nat),
      ((scheduleRows cid base tps nid).filter (fun q =>
          q.candidate_id == cid && q.email_sequence == n && q.status == "pending")).length
        = (tps.filter (fun t => t.sequence_number == n)).length := by
  intro tps
  induction tps with
  | nil => intro nid; rfl
  | cons t ts ih =>
    intro nid
    simp only [scheduleRows, List.filter_cons]
    by_cases hn : t.sequence_number == n
    · simp [hn, ih]
    · simp [hn, ih]

theorem pendingCount_trigger (s : ManagerState) (cid : Nat) (now : Int) (n : Nat)
    (c : Candidate) (h : s.candidates.find? (fun x => x.id == cid) = some c) :
    pendingCount (triggerEmailSequence s cid now).1 cid n =
      pendingCount s cid n + (s.templates.filter (fun t => t.sequence_number == n)).length := by
  rw [trigger_found_eq s cid now c h]
  simp [pendingCount, List.filter_append, scheduleRows_pending_len]

/-- C1 (amended): each call of `trigger_email_sequence` for an existing
subject unconditionally appends one fresh pending row per template, so two
calls add exactly two pending rows for every template sequence number — the
second call neither no-ops nor is rejected. -/
theorem trigger_twice_appends_two_pending_rows (s : ManagerState) (cid : Nat)
    (now1 now2 : Int) (n : Nat) (c : Candidate)
    (h : s.candidates.find? (fun x => x.id == cid) = some c) :
    pendingCount (triggerEmailSequence (triggerEmailSequence s cid now1).1 cid now2).1 cid n =
      pendingCount s cid n + 2 * (s.templates.filter (fun t => t.sequence_number == n)).length := by
  have h1 := pendingCount_trigger s cid now1 n c h
  have hc : (triggerEmailSequence s cid now1).1.candidates.find? (fun x => x.id == cid) = some c := by
    rw [trigger_candidates]; exact h
  have h2 := pendingCount_trigger (triggerEmailSequence s cid now1).1 cid now2 n c hc
  rw [trigger_templates] at h2
  omega

/-- Witness for `trigger_twice_appends_two_pending_rows` on the fresh manager
with candidate 1 and the three loaded templates, at sequence number 1. -/
theorem trigger_twice_appends_two_pending_rows_witness :
    baseState.candidates.find? (fun x => x.id == 1) = some candAna ∧
    pendingCount (triggerEmailSequence (triggerEmailSequence baseState 1 0).1 1 0).1 1 1 =
      pendingCount baseState 1 1 +
        2 * (baseState.templates.filter (fun t => t.sequence_number == 1)).length :=
  ⟨by decide, trigger_twice_appends_two_pending_rows baseState 1 0 0 1 candAna (by decide)⟩

/-- C4 (counterexample): rendering `\x7bposition\x7d` for a subject whose
category is NULL substitutes the sentinel string `"None"` instead of leaving
the placeholder verbatim, and an unrecognized placeholder raises `KeyError`
instead of being left verbatim. -/
theorem render_unresolved_not_verbatim :
    pyFormat tmplPosOnly anaWord none ≠ Except.ok tmplPosOnly ∧
    pyFormat tmplPosOnly anaWord none = Except.ok noneWord ∧
    pyFormat tmplUnknown anaWord (some devWord) = Except.error (keyErrorOn nextStepWord) := by
  decide

/-- C4 (amended): rendering substitutes exactly the two recognized
placeholders — the candidate-name placeholder becomes the name and the
position placeholder becomes the Python string of the category (the word None
when the category is missing); any other placeholder raises `KeyError`, which
propagates out of the dispatch pass, leaving the row pending. Nothing is left
verbatim. -/
theorem render_substitution_semantics :
    (∀ (cname : String) (pos : Option String),
        pyFormat tmplCandOnly cname pos = Except.ok cname) ∧
    (∀ (cname : String) (pos : Option String),
        pyFormat tmplPosOnly cname pos = Except.ok (pyStr pos)) ∧
    pyFormat tmplUnknown anaWord (some devWord) = Except.error (keyErrorOn nextStepWord) ∧
    (processEmailQueue badFieldState 0 senderTrue).err = some (keyErrorOn nextStepWord) ∧
    (processEmailQueue badFieldState 0 senderTrue).state.queue.map (fun q => q.status) =
      ["pending"] :=
  ⟨fun _ _ => rfl, fun _ _ => rfl, by decide, by decide, by decide⟩

/-- C6 (counterexample): triggering the sequence for a candidate id that does
not exist returns normally with the printed-not-found outcome and an unchanged
state — no `NotFoundError` (or any exception) is raised, and no queue rows are
created. -/
theorem trigger_missing_candidate_returns_normally :
    triggerEmailSequence baseState 7 0 = (baseState, TriggerResult.notFound) ∧
    (triggerEmailSequence baseState 7 0).1.queue = [] := by
  decide

/-- C6 (amended): when no candidate matches the id, `trigger_email_sequence`
prints a message and returns `None` with the state unchanged (hence no queue
rows are created); no exception is involved. -/
theorem trigger_missing_candidate_no_rows (s : ManagerState) (cid : Nat) (now : Int)
    (h : s.candidates.find? (fun c => c.id == cid) = none) :
    triggerEmailSequence s cid now = (s, TriggerResult.notFound) := by
  simp [triggerEmailSequence, h]

/-- Witness for `trigger_missing_candidate_no_rows` at candidate id 9. -/
theorem trigger_missing_candidate_no_rows_witness :
    baseState.candidates.find? (fun c => c.id == 9) = none ∧
    triggerEmailSequence baseState 9 0 = (baseState, TriggerResult.notFound) :=
  ⟨by decide, trigger_missing_candidate_no_rows baseState 9 0 (by decide)⟩

/-- C8 (evaluation at the failing input): a full `process_email_queue` call
returns only a final state, the attempt trace, and an absent exception — there
is no `DispatchReport`; the Python function returns `None` after printing. -/
theorem process_returns_no_report_eval :
    processEmailQueue baseState 0 senderTrue =
      { state := baseState, attempts := [], err := none } := by
  decide

/-- C9 (counterexample): over one due pending row, two overlapping passes
(both selections precede either resolution) perform 2 successful sends while
the sequential double invocation performs 1 — the totals differ, so the
no-double-send-under-race claim fails (the loop never re-verifies `pending`
before resolving). -/
theorem interleaved_not_equal_sequential :
    ((interleavedPasses raceState 0 senderTrue).2.filter (fun a => a.success)).length = 2 ∧
    ((runPasses senderTrue raceState [0, 0]).2.filter (fun a => a.success)).length = 1 ∧
    ((interleavedPasses raceState 0 senderTrue).2.filter (fun a => a.success)).length ≠
      ((runPasses senderTrue raceState [0, 0]).2.filter (fun a => a.success)).length := by
  decide

/-- C9 (amended): two overlapping dispatch passes whose `SELECT`s both run
before either `UPDATE` each send the same queue row once — the row is
double-sent (two successful attempts for row 1), while sequential
re-invocation sends it exactly once. The code has no per-row re-verification
step. -/
theorem interleaved_passes_double_send :
    (interleavedPasses raceState 0 senderTrue).2.map (fun a => (a.queue_id, a.success)) =
      [(1, true), (1, true)] ∧
    (runPasses senderTrue raceState [0, 0]).2.map (fun a => (a.queue_id, a.success)) =
      [(1, true)] := by
  decide

/-- C3 (counterexample): with two rows due at the same time, the pass
processes them in table order (candidate 2's row first, then candidate 1's) —
the `ORDER BY eq.scheduled_for` has no tie-break, so ties are NOT broken by
subject id then sequence number as claimed. -/
theorem dispatch_tie_order_not_by_candidate_id :
    (processEmailQueue tieState 100 senderTrue).attempts.map (fun a => a.candidate_id) = [2, 1] ∧
    (processEmailQueue tieState 100 senderTrue).attempts.map (fun a => a.candidate_id) ≠ [1, 2] := by
  decide

theorem insertSched_perm (a : QueueRow × Candidate) (l : List (QueueRow × Candidate)) :
    (insertSched a l).Perm (a :: l) := by
  induction l with
  | nil => exact List.Perm.refl _
  | cons b t ih =>
    simp only [insertSched]
    split
    · exact (ih.cons b).trans (List.Perm.swap a b t)
    · exact List.Perm.refl _

theorem sortSched_perm (l : List (QueueRow × Candidate)) : (sortSched l).Perm l := by
  induction l with
  | nil => exact List.Perm.refl _
  | cons a t ih => exact (insertSched_perm a (sortSched t)).trans (ih.cons a)

theorem mem_selectPending (s : ManagerState) (now : Int) (q : QueueRow) (c : Candidate) :
    (q, c) ∈ selectPending s now ↔
      q ∈ s.queue ∧ q.status = "pending" ∧ q.scheduled_for ≤ now ∧
      c ∈ s.candidates ∧ c.id = q.candidate_id := by
  unfold selectPending
  rw [(sortSched_perm _).mem_iff]
  unfold joinCandidates duePending
  simp only [List.mem_flatMap, List.mem_filter, List.mem_map, Bool.and_eq_true,
    beq_iff_eq, decide_eq_true_eq]
  constructor
  · rintro ⟨x, ⟨⟨hx, hst, hd⟩, c', ⟨hc', hcid⟩, heq⟩⟩
    obtain ⟨rfl, rfl⟩ : x = q ∧ c' = c := by
      constructor <;> [exact congrArg Prod.fst heq; exact congrArg Prod.snd heq]
    exact ⟨hx, hst, hd, hc', hcid⟩
  · rintro ⟨hx, hst, hd, hc', hcid⟩
    exact ⟨q, ⟨hx, hst, hd⟩, c, ⟨hc', hcid⟩, rfl⟩

theorem mem_insertSched {x a : QueueRow × Candidate} {l : List (QueueRow × Candidate)}
    (h : x ∈ insertSched a l) : x = a ∨ x ∈ l := by
  have := (insertSched_perm a l).mem_iff.mp h
  simpa using this

theorem insertSched_pairwise (a : QueueRow × Candidate) (l : List (QueueRow × Candidate))
    (h : l.Pairwise (fun x y => x.1.scheduled_for ≤ y.1.scheduled_for)) :
    (insertSched a l).Pairwise (fun x y => x.1.scheduled_for ≤ y.1.scheduled_for) := by
  induction l with
  | nil => simp [insertSched]
  | cons b t ih =>
    rw [List.pairwise_cons] at h
    obtain ⟨hb, ht⟩ := h
    simp only [insertSched]
    split
    · rename_i hlt
      rw [List.pairwise_cons]
      refine ⟨?_, ih ht⟩
      intro x hx
      rcases mem_insertSched hx with rfl | hx
      · exact le_of_lt hlt
      · exact hb x hx
    · rename_i hnlt
      rw [List.pairwise_cons]
      refine ⟨?_, List.pairwise_cons.mpr ⟨hb, ht⟩⟩
      intro x hx
      rcases List.mem_cons.mp hx with rfl | hx
      · exact Int.not_lt.mp hnlt
      · exact le_trans (Int.not_lt.mp hnlt) (hb x hx)

theorem sortSched_pairwise (l : List (QueueRow × Candidate)) :
    (sortSched l).Pairwise (fun x y => x.1.scheduled_for ≤ y.1.scheduled_for) := by
  induction l with
  | nil => simp [sortSched]
  | cons a t ih => exact insertSched_pairwise a (sortSched t) ih

/-- C3 (amended): the pass selects exactly the pending queue rows due at or
before `now` (inclusive boundary), joined with their existing candidate row,
and processes them in ascending due-time order; ties carry no
candidate-id/sequence ordering guarantee (no secondary sort key exists — see
the tie counterexample). For the real templates (delays 0, 2, 5 days) a
subject enrolled at time 0 yields cumulative resolved counts 1, 1, 2, 3 at
times 0, 2d−1s, 2d, 5d. -/
theorem dispatch_selection_order_and_gating :
    (∀ (s : ManagerState) (now : Int) (q : QueueRow) (c : Candidate),
        (q, c) ∈ selectPending s now ↔
          q ∈ s.queue ∧ q.status = "pending" ∧ q.scheduled_for ≤ now ∧
          c ∈ s.candidates ∧ c.id = q.candidate_id) ∧
    (∀ (s : ManagerState) (now : Int),
        (selectPending s now).Pairwise (fun x y => x.1.scheduled_for ≤ y.1.scheduled_for)) ∧
    resolvedAfterPasses senderTrue enrolledOnce [0, 172799, 172800, 432000] = [1, 1, 2, 3] :=
  ⟨mem_selectPending, fun _ _ => sortSched_pairwise _, by decide⟩

theorem runRows_templates (sender : String → String → String → Bool) :
    ∀ (rows : List (QueueRow × Candidate)) (s : ManagerState),
      (runRows sender s rows).state.templates = s.templates := by
  intro rows
  induction rows with
  | nil => intro s; rfl
  | cons p rest ih =>
    intro s
    obtain ⟨q, c⟩ := p
    simp only [runRows]
    split
    · exact ih s
    · split
      · rfl
      · split
        · rfl
        · exact (ih _).trans rfl

theorem runRows_candidates (sender : String → String → String → Bool) :
    ∀ (rows : List (QueueRow × Candidate)) (s : ManagerState),
      (runRows sender s rows).state.candidates = s.candidates := by
  intro rows
  induction rows with
  | nil => intro s; rfl
  | cons p rest ih =>
    intro s
    obtain ⟨q, c⟩ := p
    simp only [runRows]
    split
    · exact ih s
    · split
      · rfl
      · split
        · rfl
        · exact (ih _).trans rfl

theorem updateQueueStatus_queue_ids (s : ManagerState) (qid : Nat) (v : String) :
    (updateQueueStatus s qid v).queue.map (fun q => q.id) = s.queue.map (fun q => q.id) := by
  simp only [updateQueueStatus, List.map_map]
  apply List.map_congr_left
  intro a _
  simp only [Function.comp]
  split <;> rfl

theorem runRows_queue_ids (sender : String → String → String → Bool) :
    ∀ (rows : List (QueueRow × Candidate)) (s : ManagerState),
      (runRows sender s rows).state.queue.map (fun q => q.id) =
        s.queue.map (fun q => q.id) := by
  intro rows
  induction rows with
  | nil => intro s; rfl
  | cons p rest ih =>
    intro s
    obtain ⟨q, c⟩ := p
    simp only [runRows]
    split
    · exact ih s
    · split
      · rfl
      · split
        · rfl
        · exact (ih _).trans (updateQueueStatus_queue_ids s q.id _)

theorem update_mem_of_ne {s : ManagerState} {qid : Nat} {v : String} {r : QueueRow}
    (hr : r ∈ s.queue) (hne : r.id ≠ qid) : r ∈ (updateQueueStatus s qid v).queue := by
  simp only [updateQueueStatus, List.mem_map]
  exact ⟨r, hr, by simp [hne]⟩

theorem runRows_attempts_origin (sender : String → String → String → Bool) :
    ∀ (rows : List (QueueRow × Candidate)) (s : ManagerState),
      ∀ a ∈ (runRows sender s rows).attempts,
        ∃ p, p ∈ rows ∧ a.queue_id = p.1.id ∧
          (s.templates.find? (fun t => t.sequence_number == p.1.email_sequence)).isSome := by
  intro rows
  induction rows with
  | nil => intro s a ha; exact absurd ha (List.not_mem_nil a)
  | cons p rest ih =>
    intro s a ha
    obtain ⟨q, c⟩ := p
    simp only [runRows] at ha
    revert ha
    split
    · intro ha
      obtain ⟨p, hp, h1, h2⟩ := ih s a ha
      exact ⟨p, List.mem_cons_of_mem _ hp, h1, h2⟩
    · split
      · intro ha; exact absurd ha (List.not_mem_nil a)
      · split
        · intro ha; exact absurd ha (List.not_mem_nil a)
        · intro ha
          rcases List.mem_cons.mp ha with rfl | ha
          · refine ⟨(q, c), List.mem_cons_self _ _, rfl, ?_⟩
            simp only [Option.isSome_iff_exists]
            exact ⟨_, by assumption⟩
          · obtain ⟨p, hp, h1, h2⟩ := ih _ a ha
            exact ⟨p, List.mem_cons_of_mem _ hp, h1, h2⟩

theorem runRows_frame (sender : String → String → String → Bool) :
    ∀ (rows : List (QueueRow × Candidate)) (s : ManagerState) (r : QueueRow),
      r ∈ s.queue →
      (∀ a ∈ (runRows sender s rows).attempts, a.queue_id ≠ r.id) →
      r ∈ (runRows sender s rows).state.queue := by
  intro rows
  induction rows with
  | nil => intro s r hr _; exact hr
  | cons p rest ih =>
    intro s r hr hno
    obtain ⟨q, c⟩ := p
    simp only [runRows] at hno ⊢
    revert hno
    split
    · intro hno; exact ih s r hr hno
    · split
      · intro _; exact hr
      · split
        · intro _; exact hr
        · intro hno
          have hqr : q.id ≠ r.id :=
            hno { queue_id := q.id, candidate_id := q.candidate_id,
                  email_sequence := q.email_sequence, subject := _, success := _ }
              (List.mem_cons_self _ _)
          exact ih _ r (update_mem_of_ne hr (fun h => hqr h.symm))
            (fun a ha => hno a (List.mem_cons_of_mem _ ha))

theorem runRows_all_skip (sender : String → String → String → Bool) :
    ∀ (rows : List (QueueRow × Candidate)) (s : ManagerState),
      (∀ p ∈ rows, s.templates.find? (fun t => t.sequence_number == p.1.email_sequence) = none) →
      runRows sender s rows = { state := s, attempts := [], err := none } := by
  intro rows
  induction rows with
  | nil => intro s _; rfl
  | cons p rest ih =>
    intro s h
    obtain ⟨q, c⟩ := p
    simp only [runRows]
    rw [h (q, c) (List.mem_cons_self _ _)]
    exact ih s (fun p hp => h p (List.mem_cons_of_mem _ hp))

/-- C7: a due pending queue row whose sequence number matches no template is
skipped by the dispatch pass: it stays in the queue unmodified (still
`pending`), no send is attempted for it, and — when every selected row lacks
its template — the pass terminates normally with the state untouched and no
exception, so a later pass can retry. -/
theorem missing_template_row_left_pending (s : ManagerState) (now : Int)
    (sender : String → String → String → Bool) (r : QueueRow)
    (hq : (s.queue.map (fun q => q.id)).Nodup)
    (hr : r ∈ s.queue) (hp : r.status = "pending") (hd : r.scheduled_for ≤ now)
    (ht : s.templates.find? (fun t => t.sequence_number == r.email_sequence) = none) :
    r ∈ (processEmailQueue s now sender).state.queue ∧
    (∀ a ∈ (processEmailQueue s now sender).attempts, a.queue_id ≠ r.id) ∧
    ((∀ p ∈ selectPending s now,
        s.templates.find? (fun t => t.sequence_number == p.1.email_sequence) = none) →
      processEmailQueue s now sender = { state := s, attempts := [], err := none }) := by
  have hno : ∀ a ∈ (processEmailQueue s now sender).attempts, a.queue_id ≠ r.id := by
    intro a ha heq
    obtain ⟨p, hpmem, hida, hsome⟩ :=
      runRows_attempts_origin sender (selectPending s now) s a ha
    have hmem := (mem_selectPending s now p.1 p.2).mp hpmem
    have hpr : p.1 = r :=
      List.inj_on_of_nodup_map hq hmem.1 hr (by rw [← hida, heq])
    rw [hpr, ht] at hsome
    simp at hsome
  exact ⟨runRows_frame sender (selectPending s now) s r hr hno, hno,
    fun hall => runRows_all_skip sender (selectPending s now) s hall⟩

/-- Witness for `missing_template_row_left_pending`: one due pending row with
sequence 1 and an empty template list. -/
theorem missing_template_row_left_pending_witness :
    (skipState.queue.map (fun q => q.id)).Nodup ∧
    ({ id := 1, candidate_id := 1, email_sequence := 1, scheduled_for := 0,
       status := "pending" } : QueueRow) ∈
      (processEmailQueue skipState 0 senderTrue).state.queue ∧
    processEmailQueue skipState 0 senderTrue =
      { state := skipState, attempts := [], err := none } :=
  ⟨by decide,
   (missing_template_row_left_pending skipState 0 senderTrue
      { id := 1, candidate_id := 1, email_sequence := 1, scheduled_for := 0,
        status := "pending" }
      (by decide) (by decide) (by decide) (by decide) (by decide)).1,
   (missing_template_row_left_pending skipState 0 senderTrue
      { id := 1, candidate_id := 1, email_sequence := 1, scheduled_for := 0,
        status := "pending" }
      (by decide) (by decide) (by decide) (by decide) (by decide)).2.2 (by decide)⟩

theorem runRows_const_sender (bval : Bool) (sender : String → String → String → Bool)
    (hsend : ∀ x y z, sender x y z = bval) (tps : List EmailTemplate) :
    ∀ (rows : List (QueueRow × Candidate)) (s : ManagerState),
      s.templates = tps →
      (∀ p ∈ rows, rowRendersB tps p = true) →
      (runRows sender s rows).err = none ∧
      (runRows sender s rows).attempts.map (fun a => a.queue_id) =
        rows.map (fun p => p.1.id) ∧
      (runRows sender s rows).state.logs =
        s.logs ++ (runRows sender s rows).attempts.map (fun a =>
          { candidate_id := a.candidate_id, email_sequence := a.email_sequence,
            subject := a.subject,
            status := if bval then "sent" else "failed",
            error_message := if bval then none else some smtpErrorMsg }) := by
  intro rows
  induction rows with
  | nil => intro s _ _; exact ⟨rfl, rfl, by simp [runRows]⟩
  | cons p rest ih =>
    intro s htpl h
    obtain ⟨q, c⟩ := p
    have hp := h (q, c) (List.mem_cons_self _ _)
    simp only [rowRendersB] at hp
    split at hp
    · exact absurd hp (by decide)
    · rename_i t hfind
      rw [Bool.and_eq_true] at hp
      obtain ⟨hp1, hp2⟩ := hp
      split at hp1
      case h_2 => exact absurd hp1 (by decide)
      rename_i subj hsubj
      split at hp2
      case h_2 => exact absurd hp2 (by decide)
      rename_i body hbody
      simp only [runRows, htpl, hfind, hsubj, hbody, hsend]
      have hIH := ih
        (appendLog (updateQueueStatus s q.id (if bval = true then "sent" else "failed"))
          { candidate_id := q.candidate_id, email_sequence := q.email_sequence,
            subject := subj,
            status := if bval = true then "sent" else "failed",
            error_message := if bval = true then none else some smtpErrorMsg })
        htpl (fun p hp' => h p (List.mem_cons_of_mem _ hp'))
      refine ⟨hIH.1, ?_, ?_⟩
      · simp only [List.map_cons]
        rw [hIH.2.1]
      · rw [hIH.2.2]
        simp [appendLog, updateQueueStatus, List.append_assoc]

theorem update_allIdStatus_self (s : ManagerState) (i : Nat) (v : String) :
    allIdStatus (updateQueueStatus s i v) i v := by
  intro q hq hid
  simp only [updateQueueStatus, List.mem_map] at hq
  obtain ⟨q0, _, rfl⟩ := hq
  by_cases h : q0.id = i
  · rw [if_pos (by simpa using h)]
  · rw [if_neg (by simpa using h)] at hid ⊢
    exact absurd hid h

theorem update_allIdStatus_pres (s : ManagerState) (qid i : Nat) (v : String)
    (h : allIdStatus s i v) : allIdStatus (updateQueueStatus s qid v) i v := by
  intro q hq hid
  simp only [updateQueueStatus, List.mem_map] at hq
  obtain ⟨q0, hq0, rfl⟩ := hq
  by_cases hb : q0.id = qid
  · rw [if_pos (by simpa using hb)]
  · rw [if_neg (by simpa using hb)] at hid ⊢
    exact h q0 hq0 hid

theorem runRows_const_allstatus_pres (bval : Bool) (sender : String → String → String → Bool)
    (hsend : ∀ x y z, sender x y z = bval) :
    ∀ (rows : List (QueueRow × Candidate)) (s : ManagerState) (i : Nat),
      allIdStatus s i (if bval then "sent" else "failed") →
      allIdStatus (runRows sender s rows).state i (if bval then "sent" else "failed") := by
  intro rows
  induction rows with
  | nil => intro s i h; exact h
  | cons p rest ih =>
    intro s i h
    obtain ⟨q, c⟩ := p
    simp only [runRows]
    split
    · exact ih s i h
    · split
      · exact h
      · split
        · exact h
        · simp only [hsend]
          exact ih _ i (update_allIdStatus_pres s q.id i _ h)

theorem runRows_const_attempt_status (bval : Bool) (sender : String → String → String → Bool)
    (hsend : ∀ x y z, sender x y z = bval) :
    ∀ (rows : List (QueueRow × Candidate)) (s : ManagerState),
      ∀ a ∈ (runRows sender s rows).attempts,
        allIdStatus (runRows sender s rows).state a.queue_id
          (if bval then "sent" else "failed") := by
  intro rows
  induction rows with
  | nil => intro s a ha; exact absurd ha (List.not_mem_nil a)
  | cons p rest ih =>
    intro s a ha
    obtain ⟨q, c⟩ := p
    simp only [runRows] at ha ⊢
    revert ha
    split
    · intro ha; exact ih s a ha
    · split
      · intro ha; exact absurd ha (List.not_mem_nil a)
      · split
        · intro ha; exact absurd ha (List.not_mem_nil a)
        · intro ha
          rcases List.mem_cons.mp ha with rfl | ha
          · simp only [hsend]
            exact runRows_const_allstatus_pres bval sender hsend rest _ q.id
              (update_allIdStatus_self s q.id _)
          · exact ih _ a ha

/-- C5: with a sender that always fails, a dispatch pass raises nothing
(`err = none`), performs exactly one send attempt per selected row (in
order), appends exactly one `failed` log entry per attempt with the captured
detail, and leaves every selected row's status `failed`. -/
theorem failing_sender_resolves_failed_with_one_log (s : ManagerState) (now : Int)
    (hTok : ∀ p ∈ selectPending s now, rowRendersB s.templates p = true) :
    (processEmailQueue s now (fun _ _ _ => false)).err = none ∧
    (processEmailQueue s now (fun _ _ _ => false)).attempts.map (fun a => a.queue_id) =
      (selectPending s now).map (fun p => p.1.id) ∧
    (processEmailQueue s now (fun _ _ _ => false)).state.logs =
      s.logs ++ (processEmailQueue s now (fun _ _ _ => false)).attempts.map (fun a =>
        { candidate_id := a.candidate_id, email_sequence := a.email_sequence,
          subject := a.subject, status := "failed",
          error_message := some smtpErrorMsg }) ∧
    (∀ q ∈ (processEmailQueue s now (fun _ _ _ => false)).state.queue,
        q.id ∈ (selectPending s now).map (fun p => p.1.id) → q.status = "failed") := by
  have hsend : ∀ x y z, (fun (_ _ _ : String) => false) x y z = false := fun _ _ _ => rfl
  obtain ⟨h1, h2, h3⟩ :=
    runRows_const_sender false _ hsend s.templates (selectPending s now) s rfl hTok
  refine ⟨h1, h2, h3, ?_⟩
  intro q hq hid
  rw [← h2] at hid
  obtain ⟨a, ha, haq⟩ := List.mem_map.mp hid
  exact runRows_const_attempt_status false _ hsend (selectPending s now) s a ha q hq haq.symm

/-- Witness for `failing_sender_resolves_failed_with_one_log`: one due row
with a rendering template and the always-failing sender. -/
theorem failing_sender_witness :
    (selectPending oneRowState 0).all (fun p => rowRendersB oneRowState.templates p) = true ∧
    (processEmailQueue oneRowState 0 (fun _ _ _ => false)).err = none ∧
    (processEmailQueue oneRowState 0 (fun _ _ _ => false)).attempts.map (fun a => a.queue_id) =
      (selectPending oneRowState 0).map (fun p => p.1.id) :=
  ⟨by decide,
   (failing_sender_resolves_failed_with_one_log oneRowState 0 (by decide)).1,
   (failing_sender_resolves_failed_with_one_log oneRowState 0 (by decide)).2.1⟩

theorem update_noPending_self (s : ManagerState) (i : Nat) (v : String)
    (hv : v ≠ "pending") : noPendingId (updateQueueStatus s i v) i := by
  intro q hq hid
  simp only [updateQueueStatus, List.mem_map] at hq
  obtain ⟨q0, _, rfl⟩ := hq
  by_cases h : q0.id = i
  · rw [if_pos (by simpa using h)]
    exact hv
  · rw [if_neg (by simpa using h)] at hid
    exact absurd hid h

theorem update_noPending_pres (s : ManagerState) (qid i : Nat) (v : String)
    (hv : v ≠ "pending") (h : noPendingId s i) :
    noPendingId (updateQueueStatus s qid v) i := by
  intro q hq hid
  simp only [updateQueueStatus, List.mem_map] at hq
  obtain ⟨q0, hq0, rfl⟩ := hq
  by_cases hb : q0.id = qid
  · rw [if_pos (by simpa using hb)]
    exact hv
  · rw [if_neg (by simpa using hb)] at hid ⊢
    exact h q0 hq0 hid

theorem runRows_noPending_pres (sender : String → String → String → Bool) :
    ∀ (rows : List (QueueRow × Candidate)) (s : ManagerState) (i : Nat),
      noPendingId s i → noPendingId (runRows sender s rows).state i := by
  intro rows
  induction rows with
  | nil => intro s i h; exact h
  | cons p rest ih =>
    intro s i h
    obtain ⟨q, c⟩ := p
    simp only [runRows]
    split
    · exact ih s i h
    · split
      · exact h
      · split
        · exact h
        · exact ih _ i (update_noPending_pres s q.id i _ (by split <;> decide) h)

theorem runRows_attempted_noPending (sender : String → String → String → Bool) :
    ∀ (rows : List (QueueRow × Candidate)) (s : ManagerState),
      ∀ a ∈ (runRows sender s rows).attempts,
        noPendingId (runRows sender s rows).state a.queue_id := by
  intro rows
  induction rows with
  | nil => intro s a ha; exact absurd ha (List.not_mem_nil a)
  | cons p rest ih =>
    intro s a ha
    obtain ⟨q, c⟩ := p
    simp only [runRows] at ha ⊢
    revert ha
    split
    · intro ha; exact ih s a ha
    · split
      · intro ha; exact absurd ha (List.not_mem_nil a)
      · split
        · intro ha; exact absurd ha (List.not_mem_nil a)
        · intro ha
          rcases List.mem_cons.mp ha with rfl | ha
          · exact runRows_noPending_pres sender rest _ q.id
              (update_noPending_self s q.id _ (by split <;> decide))
          · exact ih _ a ha

theorem pass_queue_ids (s : ManagerState) (now : Int)
    (sender : String → String → String → Bool) :
    (processEmailQueue s now sender).state.queue.map (fun q => q.id) =
      s.queue.map (fun q => q.id) :=
  runRows_queue_ids sender (selectPending s now) s

theorem pass_candidates (s : ManagerState) (now : Int)
    (sender : String → String → String → Bool) :
    (processEmailQueue s now sender).state.candidates = s.candidates :=
  runRows_candidates sender (selectPending s now) s

theorem pass_attempts_pending (s : ManagerState) (now : Int)
    (sender : String → String → String → Bool) :
    ∀ a ∈ (processEmailQueue s now sender).attempts,
      ∃ q ∈ s.queue, a.queue_id = q.id ∧ q.status = "pending" := by
  intro a ha
  obtain ⟨p, hp, hid, _⟩ := runRows_attempts_origin sender (selectPending s now) s a ha
  have hm := (mem_selectPending s now p.1 p.2).mp hp
  exact ⟨p.1, hm.1, hid, hm.2.1⟩

theorem countA_append (l1 l2 : List Attempt) (i : Nat) :
    countA (l1 ++ l2) i = countA l1 i + countA l2 i := by
  simp [countA, List.filter_append]

theorem countA_cons (a : Attempt) (l : List Attempt) (i : Nat) :
    countA (a :: l) i = countA l i + if a.queue_id == i then 1 else 0 := by
  simp only [countA, List.filter_cons]
  split
  · simp [Nat.add_comm]
  · simp

theorem countA_eq_zero {l : List Attempt} {i : Nat} :
    countA l i = 0 ↔ ∀ a ∈ l, a.queue_id ≠ i := by
  simp [countA, List.length_eq_zero, List.filter_eq_nil_iff]

theorem runRows_countA_le (sender : String → String → String → Bool) :
    ∀ (rows : List (QueueRow × Candidate)) (s : ManagerState) (i : Nat),
      countA (runRows sender s rows).attempts i ≤
        rows.countP (fun p => p.1.id == i) := by
  intro rows
  induction rows with
  | nil => intro s i; exact Nat.le_refl _
  | cons p rest ih =>
    intro s i
    obtain ⟨q, c⟩ := p
    simp only [runRows]
    split
    · refine le_trans (ih s i) ?_
      rw [List.countP_cons]
      omega
    · split
      · exact Nat.zero_le _
      · split
        · exact Nat.zero_le _
        · rw [List.countP_cons, countA_cons]
          dsimp only
          exact Nat.add_le_add_right (ih _ i) _

theorem filter_cand_len_le_one (cands : List Candidate)
    (hc : (cands.map (fun c => c.id)).Nodup) (x : Nat) :
    (cands.filter (fun c => c.id == x)).length ≤ 1 := by
  induction cands with
  | nil => simp
  | cons c t ih =>
    rw [List.map_cons, List.nodup_cons] at hc
    obtain ⟨hni, ht⟩ := hc
    rw [List.filter_cons]
    by_cases h : c.id = x
    · have hnil : t.filter (fun c => c.id == x) = [] := by
        rw [List.filter_eq_nil_iff]
        intro c' hc' hbeq
        rw [beq_iff_eq] at hbeq
        exact hni (List.mem_map.mpr ⟨c', hc', by rw [hbeq, h]⟩)
      rw [if_pos (by simpa using h), hnil]
      exact Nat.le_refl _
    · rw [if_neg (by simpa using h)]
      exact ih ht

theorem join_countP_le (s : ManagerState)
    (hc : (s.candidates.map (fun c => c.id)).Nodup) (i : Nat) :
    ∀ l : List QueueRow,
      (joinCandidates s l).countP (fun p => p.1.id == i) ≤
        l.countP (fun q => q.id == i) := by
  intro l
  induction l with
  | nil => simp [joinCandidates]
  | cons q t ih =>
    simp only [joinCandidates, List.flatMap_cons] at ih ⊢
    rw [List.countP_append, List.countP_cons]
    have hcomp : ((fun (p : QueueRow × Candidate) => p.1.id == i) ∘ (fun c => (q, c))) =
        fun (_ : Candidate) => (q.id == i) := rfl
    have hblock :
        ((s.candidates.filter (fun c => c.id == q.candidate_id)).map
          (fun c => (q, c))).countP (fun p => p.1.id == i) ≤
          if (q.id == i) = true then 1 else 0 := by
      rw [List.countP_map, hcomp]
      by_cases hq : (q.id == i) = true
      · rw [if_pos hq]
        have hfun : (fun (_ : Candidate) => (q.id == i)) = fun _ => true := by
          funext _; exact hq
        rw [hfun, List.countP_true]
        exact filter_cand_len_le_one s.candidates hc q.candidate_id
      · rw [if_neg hq]
        have hfun : (fun (_ : Candidate) => (q.id == i)) = fun _ => false := by
          funext _; simpa using hq
        rw [hfun]
        simp [List.countP_false]
    calc ((s.candidates.filter (fun c => c.id == q.candidate_id)).map
            (fun c => (q, c))).countP (fun p => p.1.id == i) +
          (t.flatMap (fun q => (s.candidates.filter (fun c => c.id == q.candidate_id)).map
            (fun c => (q, c)))).countP (fun p => p.1.id == i)
        ≤ (if (q.id == i) = true then 1 else 0) + t.countP (fun q => q.id == i) :=
          Nat.add_le_add hblock ih
      _ = t.countP (fun q => q.id == i) + if (q.id == i) = true then 1 else 0 :=
          Nat.add_comm _ _

theorem selected_countP_le_one (s : ManagerState) (now : Int) (i : Nat)
    (hq : (s.queue.map (fun q => q.id)).Nodup)
    (hc : (s.candidates.map (fun c => c.id)).Nodup) :
    (selectPending s now).countP (fun p => p.1.id == i) ≤ 1 := by
  unfold selectPending
  rw [(sortSched_perm _).countP_eq]
  refine le_trans (join_countP_le s hc i (duePending s now)) ?_
  have hdue : (duePending s now).countP (fun q => q.id == i) ≤
      s.queue.countP (fun q => q.id == i) := by
    unfold duePending
    exact (List.filter_sublist _).countP_le _
  refine le_trans hdue ?_
  have hcnt : s.queue.countP (fun q => q.id == i) =
      (s.queue.map (fun q => q.id)).count i := by
    rw [List.count_eq_countP, List.countP_map]
    rfl
  rw [hcnt]
  exact List.nodup_iff_count_le_one.mp hq i

theorem runPasses_noPending_zero (sender : String → String → String → Bool) :
    ∀ (ts : List Int) (s : ManagerState) (i : Nat),
      noPendingId s i → countA (runPasses sender s ts).2 i = 0 := by
  intro ts
  induction ts with
  | nil => intro s i _; rfl
  | cons t ts ih =>
    intro s i h
    simp only [runPasses]
    rw [countA_append]
    have h1 : countA (processEmailQueue s t sender).attempts i = 0 := by
      rw [countA_eq_zero]
      intro a ha heq
      obtain ⟨q', hq', hid, hst⟩ := pass_attempts_pending s t sender a ha
      exact h q' hq' (by rw [← hid]; exact heq) hst
    rw [h1, ih (processEmailQueue s t sender).state i
      (runRows_noPending_pres sender (selectPending s t) s i h)]

/-- C2: with pairwise-distinct queue-row ids and candidate ids, any sequence
of dispatch passes (any times, including repeats of the same `now`) sends
each queue row at most once, and a row that has already left `pending`
(`sent`/`failed`) is never selected or mutated again — it survives every
later pass unchanged. -/
theorem dispatch_at_most_once_per_queue_row (s : ManagerState)
    (sender : String → String → String → Bool) (ts : List Int) (i : Nat)
    (hq : (s.queue.map (fun q => q.id)).Nodup)
    (hc : (s.candidates.map (fun c => c.id)).Nodup) :
    countA (runPasses sender s ts).2 i ≤ 1 ∧
    ∀ q ∈ s.queue, q.status ≠ "pending" → q ∈ (runPasses sender s ts).1.queue := by
  induction ts generalizing s with
  | nil => exact ⟨Nat.zero_le 1, fun q hq' _ => hq'⟩
  | cons t ts ih =>
    have hq2 : ((processEmailQueue s t sender).state.queue.map (fun q => q.id)).Nodup := by
      rw [pass_queue_ids]; exact hq
    have hc2 : ((processEmailQueue s t sender).state.candidates.map (fun c => c.id)).Nodup := by
      rw [pass_candidates]; exact hc
    obtain ⟨ih1, ih2⟩ := ih _ hq2 hc2
    constructor
    · simp only [runPasses]
      rw [countA_append]
      by_cases hz : countA (processEmailQueue s t sender).attempts i = 0
      · rw [hz]
        simpa using ih1
      · have hex : ∃ a ∈ (processEmailQueue s t sender).attempts, a.queue_id = i := by
          by_contra hno
          push_neg at hno
          exact hz (countA_eq_zero.mpr hno)
        obtain ⟨a, ha, hai⟩ := hex
        have hnp : noPendingId (processEmailQueue s t sender).state i := by
          rw [← hai]
          exact runRows_attempted_noPending sender (selectPending s t) s a ha
        have hzero := runPasses_noPending_zero sender ts
          (processEmailQueue s t sender).state i hnp
        have hone : countA (processEmailQueue s t sender).attempts i ≤ 1 :=
          le_trans (runRows_countA_le sender (selectPending s t) s i)
            (selected_countP_le_one s t i hq hc)
        omega
    · intro q hqm hqs
      have hnoatt : ∀ a ∈ (processEmailQueue s t sender).attempts, a.queue_id ≠ q.id := by
        intro a ha heq
        obtain ⟨q', hq', hid, hst⟩ := pass_attempts_pending s t sender a ha
        have hq'q : q' = q :=
          List.inj_on_of_nodup_map hq hq' hqm (by rw [← hid]; exact heq)
        rw [hq'q] at hst
        exact hqs hst
      exact ih2 q (runRows_frame sender (selectPending s t) s q hqm hnoatt) hqs

/-- Witness for `dispatch_at_most_once_per_queue_row`: one enrollment, three
passes (two at the same time), queue row 1 attempted at most once. -/
theorem dispatch_at_most_once_witness :
    (enrolledOnce.queue.map (fun q => q.id)).Nodup ∧
    (enrolledOnce.candidates.map (fun c => c.id)).Nodup ∧
    countA (runPasses senderTrue enrolledOnce [0, 432000, 432000]).2 1 ≤ 1 :=
  ⟨by decide, by decide,
   (dispatch_at_most_once_per_queue_row enrolledOnce senderTrue [0, 432000, 432000] 1
      (by decide) (by decide)).1⟩

/-- C10: when `SMTP_USER` or `SMTP_PASSWORD` is unset, `send_email` performs
no transmission and returns `True`, so the dispatch pass marks the due row
`sent` and writes a success log entry even though nothing was delivered. -/
theorem send_email_unconfigured_simulates_success (env : SmtpEnv)
    (h : env.smtp_user = none ∨ env.smtp_password = none) :
    (∀ a b c, sendEmailFull env a b c = { result := true, transmitted := false }) ∧
    (processEmailQueue oneRowState 0 (sendEmail env)).state.queue.map (fun q => q.status) =
      ["sent"] ∧
    (processEmailQueue oneRowState 0 (sendEmail env)).state.logs.map
      (fun e => (e.status, e.error_message)) = [("sent", none)] := by
  have hfull : ∀ a b c, sendEmailFull env a b c = { result := true, transmitted := false } := by
    intro a b c
    rcases h with h | h <;> simp [sendEmailFull, truthy, h]
  have hs : sendEmail env = fun _ _ _ => true := by
    funext a b c
    simp [sendEmail, hfull]
  refine ⟨hfull, ?_, ?_⟩ <;> rw [hs] <;> decide

/-- Witness for `send_email_unconfigured_simulates_success` with both
variables unset. -/
theorem send_email_unconfigured_witness :
    sendEmailFull { smtp_user := none, smtp_password := none } anaWord devWord noneWord =
      { result := true, transmitted := false } ∧
    (processEmailQueue oneRowState 0
        (sendEmail { smtp_user := none, smtp_password := none })).state.queue.map
      (fun q => q.status) = ["sent"] ∧
    (processEmailQueue oneRowState 0
        (sendEmail { smtp_user := none, smtp_password := none })).state.logs.map
      (fun e => (e.status, e.error_message)) = [("sent", none)] :=
  ⟨(send_email_unconfigured_simulates_success
      { smtp_user := none, smtp_password := none } (Or.inl rfl)).1 anaWord devWord noneWord,
   (send_email_unconfigured_simulates_success
      { smtp_user := none, smtp_password := none } (Or.inl rfl)).2.1,
   (send_email_unconfigured_simulates_success
      { smtp_user := none, smtp_password := none } (Or.inl rfl)).2.2⟩

end CEM
